import Mathlib

/-!
Shallow embedding of the module-resolution and caching layer of edon
(package `internal/modules/loader`): the module loader (`LoadModule` and
the four scheme resolvers) and the NPM package manager (`InstallPackage`).

External effects are made explicit:
* the in-memory content cache, the on-disk file system (file contents and
  existing directories) and two instrumentation counters (number of scheme
  resolver invocations, number of HTTP requests issued) live in
  `LoaderState`, threaded through every operation;
* the outside world (HTTP responses, working directory, home directory)
  is a read-only `Env`; `Env.httpResp url = some (status, body)` models a
  completed HTTP exchange and `none` a transport failure.

Disk writes (`os.MkdirAll`, `os.WriteFile`) are modelled as always
succeeding; the corresponding Go error branches are unreachable in the
model and no claim depends on them.  Go string primitives are modelled on
`List Char` (`strStartsWith` for `strings.HasPrefix`, `goTrimPfx` for
`strings.TrimPrefix`, `goSplit` for `strings.Split` with a one-character
separator, `goJoin` for `filepath.Join` on already-clean components, which
drops empty components and joins the rest with `/`).
-/

namespace Edon

/-- Scheme of a specifier, as classified by the specifier classifier
(`PackageType` in the Go source).  `TypeUnknown` is the value hit by the
`default` branch of `LoadModule`'s dispatch switch. -/
inductive PackageType where
  | TypeLocal
  | TypeCDN
  | TypeNPM
  | TypeJSR
  | TypeUnknown
deriving DecidableEq, Repr

/-- Error kinds of the `internal/errors` package, one per sentinel error
referenced by the loader sources (`ErrModuleNotFound`, `ErrFileRead`,
`ErrPackageInstall`, `ErrPackageFetch`, `ErrPackageNotFound`,
`ErrCacheDir`, `ErrJSRNotImplemented`, `ErrUnsupportedModule`) plus the
invalid-specifier kind produced by the classifier. -/
inductive ErrKind where
  | InvalidSpecifier
  | UnsupportedModule
  | ModuleNotFound
  | FileRead
  | PackageNotFound
  | PackageFetch
  | PackageInstall
  | CacheDir
  | JSRNotImplemented
deriving DecidableEq, Repr

/-- Modelled from the spec: the `internal/errors` package is not under
src/.  Per the error-handling design, every failure is a tagged error
carrying one of the stable kinds plus a free-form context string. -/
structure Err where
  kind : ErrKind
  ctx : String
deriving DecidableEq, Repr

/-- Printable name of an error kind, used to render `err.Error()`. -/
def kindStr : ErrKind → String
  | .InvalidSpecifier => "invalid specifier"
  | .UnsupportedModule => "unsupported module type"
  | .ModuleNotFound => "module not found"
  | .FileRead => "failed to read file"
  | .PackageNotFound => "package not found"
  | .PackageFetch => "failed to fetch package"
  | .PackageInstall => "failed to install package"
  | .CacheDir => "failed to access cache directory"
  | .JSRNotImplemented => "jsr packages not implemented"

/-- Modelled from the spec: `err.Error()` of the `internal/errors`
package — the kind's message followed by the wrapped context. -/
def errMsg (e : Err) : String :=
  if e.ctx = "" then kindStr e.kind else kindStr e.kind ++ ": " ++ e.ctx

/-- Modelled from the spec: `errors.Wrap(kind, msg)` of the
`internal/errors` package wraps a lower-level failure into exactly one of
the stable kinds with the original cause preserved as context. -/
def Wrap (k : ErrKind) (msg : String) : Err := ⟨k, msg⟩

/-- A loaded module (`Module` in the Go source; the Go field `Type` is
rendered `Type'` because `Type` is a Lean keyword). -/
structure Module where
  URL : String
  Content : String
  Type' : PackageType
deriving DecidableEq, Repr

/-- Go `strings.HasPrefix` / `String.startsWith`, on character lists. -/
def strStartsWith (s pre : String) : Bool := pre.data.isPrefixOf s.data

/-- Go `strings.TrimPrefix`: drop `pre` from the front of `s` when
present, otherwise return `s` unchanged. -/
def goTrimPfx (s pre : String) : String :=
  if strStartsWith s pre then ⟨s.data.drop pre.data.length⟩ else s

/-- Split a character list at every occurrence of `c`
(Go `strings.Split` with a one-character separator, on the list level). -/
def goSplitAt (c : Char) : List Char → List (List Char)
  | [] => [[]]
  | x :: xs =>
    if x = c then [] :: goSplitAt c xs
    else
      match goSplitAt c xs with
      | [] => [[x]]
      | h :: t => (x :: h) :: t

/-- Go `strings.Split(s, sep)` for a one-character separator `c`. -/
def goSplit (s : String) (c : Char) : List String :=
  (goSplitAt c s.data).map fun l => ⟨l⟩

/-- Join strings with `sep` between consecutive elements. -/
def intercalateStr (sep : String) : List String → String
  | [] => ""
  | [x] => x
  | x :: y :: xs => x ++ sep ++ intercalateStr sep (y :: xs)

/-- Go `filepath.Join` on already-clean components: empty components are
dropped and the rest are joined with `/`. -/
def goJoin (parts : List String) : String :=
  intercalateStr "/" (parts.filter fun p => !(p == ""))

/-- Go `filepath.Abs` relative to the working directory `cwd` (path
cleaning is not modelled; no claim exercises it). -/
def goAbs (cwd path : String) : String :=
  if strStartsWith path "/" then path else cwd ++ "/" ++ path

/-- Result of `ValidateURL` (the specifier classifier).  `Error` is `none`
exactly when the specifier is valid. -/
structure ValidationResult where
  IsValid : Bool
  PackageType : PackageType
  Error : Option Err
deriving Repr

/-- Modelled from the spec: the specifier classifier (`ValidateURL`) is
not under src/ (only `LoadModule` calls it).  Per the classifier design:
`npm:` prefix classifies as NPM, `jsr:` as JSR, `http://` or `https://`
as CDN, anything else as Local; `valid = false` only for a recognized but
structurally broken scheme, the given example being an empty package name
after `npm:`. -/
def ValidateURL (s : String) : ValidationResult :=
  if strStartsWith s "npm:" then
    if goTrimPfx s "npm:" = "" then
      ⟨false, .TypeNPM, some ⟨.InvalidSpecifier, "empty package name"⟩⟩
    else ⟨true, .TypeNPM, none⟩
  else if strStartsWith s "jsr:" then ⟨true, .TypeJSR, none⟩
  else if strStartsWith s "http://" || strStartsWith s "https://" then
    ⟨true, .TypeCDN, none⟩
  else ⟨true, .TypeLocal, none⟩

/-- Read-only outside world: HTTP responses (`some (status, body)` for a
completed exchange, `none` for a transport failure), the process working
directory and the user's home directory. -/
structure Env where
  httpResp : String → Option (Nat × String)
  cwd : String
  homeDir : String

/-- Mutable state threaded through a load: the in-memory content cache
(`ModuleCache.modules`; insertion conses at the front and lookup takes
the first hit, matching map-overwrite semantics), the on-disk world
(file contents and existing directories), and two instrumentation
counters: scheme resolver invocations and HTTP requests issued. -/
structure LoaderState where
  cache : List (String × Module)
  files : List (String × String)
  dirs : List String
  resolverCalls : Nat
  httpGets : Nat
deriving DecidableEq, Repr

/-- First-hit association-list lookup (a Go map read). -/
def alookup {α : Type} : List (String × α) → String → Option α
  | [], _ => none
  | (k, v) :: rest, key => if k = key then some v else alookup rest key

/-- Go `os.Stat(p) == nil`: the path exists as a directory or a file. -/
def pathExists (dirs : List String) (files : List (String × String))
    (p : String) : Bool :=
  dirs.contains p || (alookup files p).isSome

/-- `ModuleLoader.getFromCache`. -/
def getFromCache (st : LoaderState) (url : String) : Option Module :=
  alookup st.cache url

/-- Package-name parsing inside `NPMPackageManager.InstallPackage`:
`strings.Split(packageName, "@")`, `name := parts[0]`, `version` is
`parts[1]` when present and `"latest"` otherwise. -/
def parsePackageName (packageName : String) : String × String :=
  let parts := goSplit packageName '@'
  let name := parts.headD ""
  let version := if parts.length > 1 then parts.getD 1 "latest" else "latest"
  (name, version)

/-- The registry metadata URL
`fmt.Sprintf("https://registry.npmjs.org/%s/%s", name, version)`. -/
def mkRegistryURL (name version : String) : String :=
  "https://registry.npmjs.org/" ++ name ++ "/" ++ version

/-- The on-disk cache path `filepath.Join(pm.cacheDir, name, version)`
computed inside `InstallPackage`. -/
def installCachePath (cacheDir packageName : String) : String :=
  goJoin [cacheDir, (parsePackageName packageName).1,
          (parsePackageName packageName).2]

/-- `NPMPackageManager.InstallPackage`: parse name and version, return the
cache path immediately when it exists on disk, otherwise fetch registry
metadata (non-200 is `ErrPackageNotFound`), create the cache directory and
materialize the placeholder entry file. -/
def InstallPackage (env : Env) (st : LoaderState)
    (cacheDir packageName : String) : Except Err String × LoaderState :=
  if pathExists st.dirs st.files (installCachePath cacheDir packageName) then
    (Except.ok (installCachePath cacheDir packageName), st)
  else
    match env.httpResp (mkRegistryURL (parsePackageName packageName).1
        (parsePackageName packageName).2) with
    | none =>
      (Except.error (Wrap .PackageFetch "transport failure"),
       { st with httpGets := st.httpGets + 1 })
    | some (status, _body) =>
      if status ≠ 200 then
        (Except.error ⟨.PackageNotFound, ""⟩,
         { st with httpGets := st.httpGets + 1 })
      else
        (Except.ok (installCachePath cacheDir packageName),
         { st with
           httpGets := st.httpGets + 1,
           dirs := installCachePath cacheDir packageName :: st.dirs,
           files := (goJoin [installCachePath cacheDir packageName, "index.js"],
                     "// TODO: Implement package content") :: st.files })

/-- `ModuleLoader.loadLocalModule`: resolve the path to absolute form and
read the file; a failed read is `ErrFileRead`. -/
def loadLocalModule (env : Env) (st : LoaderState) (path : String) :
    Except Err Module × LoaderState :=
  match alookup st.files (goAbs env.cwd path) with
  | none => (Except.error (Wrap .FileRead "read failure"),
             { st with resolverCalls := st.resolverCalls + 1 })
  | some content => (Except.ok ⟨path, content, .TypeLocal⟩,
                     { st with resolverCalls := st.resolverCalls + 1 })

/-- `ModuleLoader.loadCDNModule`: issue one GET; a transport failure is
`ErrModuleNotFound`; any completed response — its status code is never
inspected — yields a module whose content is the response body. -/
def loadCDNModule (env : Env) (st : LoaderState) (url : String) :
    Except Err Module × LoaderState :=
  match env.httpResp url with
  | none =>
    (Except.error (Wrap .ModuleNotFound "transport failure"),
     { st with resolverCalls := st.resolverCalls + 1,
               httpGets := st.httpGets + 1 })
  | some (_status, body) =>
    (Except.ok ⟨url, body, .TypeCDN⟩,
     { st with resolverCalls := st.resolverCalls + 1,
               httpGets := st.httpGets + 1 })

/-- The NPM package manager's cache root
`filepath.Join(homeDir, ".edon", "npm-cache")`. -/
def npmCacheDir (env : Env) : String :=
  goJoin [env.homeDir, ".edon", "npm-cache"]

/-- `ModuleLoader.loadNPMModule`: strip the `npm:` prefix, build the
`NPMPackageManager` (cache root `~/.edon/npm-cache`, created by
`MkdirAll`), install the package — wrapping any install failure as
`ErrPackageInstall` — then read the installed package's `index.js`. -/
def loadNPMModule (env : Env) (st : LoaderState) (url : String) :
    Except Err Module × LoaderState :=
  match InstallPackage env
      { st with resolverCalls := st.resolverCalls + 1,
                dirs := npmCacheDir env :: st.dirs }
      (npmCacheDir env) (goTrimPfx url "npm:") with
  | (Except.error e, st') =>
    (Except.error (Wrap .PackageInstall (errMsg e)), st')
  | (Except.ok packagePath, st') =>
    match alookup st'.files (goJoin [packagePath, "index.js"]) with
    | none => (Except.error (Wrap .FileRead "read failure"), st')
    | some content => (Except.ok ⟨url, content, .TypeNPM⟩, st')

/-- `ModuleLoader.loadJSRModule`: unconditionally
`errors.ErrJSRNotImplemented`. -/
def loadJSRModule (_env : Env) (st : LoaderState) (_url : String) :
    Except Err Module × LoaderState :=
  (Except.error ⟨.JSRNotImplemented, ""⟩,
   { st with resolverCalls := st.resolverCalls + 1 })

/-- The scheme-dispatch switch of `LoadModule`: route to the resolver for
the classified scheme; the `default` branch is `ErrUnsupportedModule`. -/
def dispatchResolver (env : Env) (st : LoaderState) (urlStr : String) :
    Except Err Module × LoaderState :=
  match (ValidateURL urlStr).PackageType with
  | .TypeLocal => loadLocalModule env st urlStr
  | .TypeCDN => loadCDNModule env st urlStr
  | .TypeNPM => loadNPMModule env st urlStr
  | .TypeJSR => loadJSRModule env st urlStr
  | .TypeUnknown => (Except.error ⟨.UnsupportedModule, ""⟩, st)

/-- The cache-miss path of `LoadModule`: run the resolver, propagate its
error unchanged, and on success store the module in the content cache
under the original specifier. -/
def loadMiss (env : Env) (st : LoaderState) (urlStr : String) :
    Except Err Module × LoaderState :=
  match dispatchResolver env st urlStr with
  | (Except.error e, st') => (Except.error e, st')
  | (Except.ok m, st') => (Except.ok m, { st' with cache := (urlStr, m) :: st'.cache })

/-- `ModuleLoader.LoadModule`: validate, return a cache hit immediately,
otherwise resolve and cache. -/
def LoadModule (env : Env) (st : LoaderState) (urlStr : String) :
    Except Err Module × LoaderState :=
  if (ValidateURL urlStr).IsValid then
    match getFromCache st urlStr with
    | some m => (Except.ok m, st)
    | none => loadMiss env st urlStr
  else
    (Except.error ((ValidateURL urlStr).Error.getD ⟨.InvalidSpecifier, ""⟩), st)

/-- Two `LoadModule` calls for the same specifier running concurrently, in
the schedule where both cache reads happen before either resolution.  This
interleaving is allowed by the Go code: `getFromCache` releases the
cache's read lock before the resolver runs, and the write lock is taken
only after the resolver returns. -/
def interleavedDoubleLoad (env : Env) (st : LoaderState) (S : String) :
    LoaderState :=
  if (ValidateURL S).IsValid then
    match getFromCache st S, getFromCache st S with
    | some _, some _ => st
    | some _, none => (loadMiss env st S).2
    | none, some _ => (loadMiss env st S).2
    | none, none => (loadMiss env (loadMiss env st S).2 S).2
  else st

/-- The loader state of a fresh `NewModuleLoader` over an empty world:
empty cache, empty disk, zeroed counters. -/
def st0 : LoaderState := ⟨[], [], [], 0, 0⟩

/-- Error kind of a load result, `none` on success. -/
def resultKind : Except Err Module → Option ErrKind
  | .error e => some e.kind
  | .ok _ => none

/-- The invariant of the content cache: every entry maps its specifier key
to a module whose `URL` is that key and whose scheme matches the
classifier's scheme for the key (hence the resolver that produced it). -/
def cacheInv (c : List (String × Module)) : Prop :=
  ∀ p ∈ c, p.2.URL = p.1 ∧ p.2.Type' = (ValidateURL p.1).PackageType

theorem alookup_cons_self {α : Type} (k : String) (v : α)
    (l : List (String × α)) : alookup ((k, v) :: l) k = some v := by
  simp [alookup]

/-- The classifier never produces the `Unknown` scheme: every specifier
falls into one of the four concrete schemes, the last rule being the
catch-all Local. -/
theorem validateURL_ne_unknown (s : String) :
    (ValidateURL s).PackageType ≠ .TypeUnknown := by
  unfold ValidateURL
  repeat' split
  all_goals simp

/-- A specifier built as `"jsr:" ++ name` classifies as a valid JSR
specifier, whatever `name` is. -/
theorem validateURL_jsr (name : String) :
    ValidateURL ("jsr:" ++ name) = ⟨true, .TypeJSR, none⟩ := by
  have hd : ("jsr:" ++ name).data = 'j' :: 's' :: 'r' :: ':' :: name.data := by
    rw [String.data_append]
    rfl
  have h1 : strStartsWith ("jsr:" ++ name) "npm:" = false := by
    simp [strStartsWith, hd, List.isPrefixOf]
  have h2 : strStartsWith ("jsr:" ++ name) "jsr:" = true := by
    simp [strStartsWith, hd, List.isPrefixOf]
  unfold ValidateURL
  rw [h1, h2]
  rfl

theorem installPackage_cache (env : Env) (st : LoaderState)
    (cd pn : String) : ((InstallPackage env st cd pn).2).cache = st.cache := by
  unfold InstallPackage
  repeat' split
  all_goals rfl

theorem installPackage_resolverCalls (env : Env) (st : LoaderState)
    (cd pn : String) :
    ((InstallPackage env st cd pn).2).resolverCalls = st.resolverCalls := by
  unfold InstallPackage
  repeat' split
  all_goals rfl

theorem dispatchResolver_cache (env : Env) (st : LoaderState) (S : String) :
    ((dispatchResolver env st S).2).cache = st.cache := by
  unfold dispatchResolver
  split
  · unfold loadLocalModule
    split <;> rfl
  · unfold loadCDNModule
    split <;> rfl
  · unfold loadNPMModule
    split
    next e st' heq =>
      have hc := installPackage_cache env
        { st with resolverCalls := st.resolverCalls + 1,
                  dirs := npmCacheDir env :: st.dirs }
        (npmCacheDir env) (goTrimPfx S "npm:")
      rw [heq] at hc
      exact hc
    next p st' heq =>
      have hc := installPackage_cache env
        { st with resolverCalls := st.resolverCalls + 1,
                  dirs := npmCacheDir env :: st.dirs }
        (npmCacheDir env) (goTrimPfx S "npm:")
      rw [heq] at hc
      split <;> exact hc
  · unfold loadJSRModule
    rfl
  · rfl

theorem dispatchResolver_resolverCalls (env : Env) (st : LoaderState)
    (S : String) :
    ((dispatchResolver env st S).2).resolverCalls = st.resolverCalls + 1 := by
  unfold dispatchResolver
  split
  · unfold loadLocalModule
    split <;> rfl
  · unfold loadCDNModule
    split <;> rfl
  · unfold loadNPMModule
    split
    next e st' heq =>
      have hc := installPackage_resolverCalls env
        { st with resolverCalls := st.resolverCalls + 1,
                  dirs := npmCacheDir env :: st.dirs }
        (npmCacheDir env) (goTrimPfx S "npm:")
      rw [heq] at hc
      exact hc
    next p st' heq =>
      have hc := installPackage_resolverCalls env
        { st with resolverCalls := st.resolverCalls + 1,
                  dirs := npmCacheDir env :: st.dirs }
        (npmCacheDir env) (goTrimPfx S "npm:")
      rw [heq] at hc
      split <;> exact hc
  · unfold loadJSRModule
    rfl
  · next heq => exact absurd heq (validateURL_ne_unknown S)

/-- A module produced by a successful resolver dispatch carries the
original specifier as its `URL` and the classified scheme as its type. -/
theorem dispatchResolver_ok (env : Env) (st : LoaderState) (S : String)
    (m : Module) (st' : LoaderState)
    (h : dispatchResolver env st S = (Except.ok m, st')) :
    m.URL = S ∧ m.Type' = (ValidateURL S).PackageType := by
  unfold dispatchResolver at h
  split at h
  · next hty =>
    unfold loadLocalModule at h
    split at h
    · exact absurd h (by simp)
    · rw [hty]
      simp only [Prod.mk.injEq, Except.ok.injEq] at h
      rw [← h.1]
      exact ⟨rfl, rfl⟩
  · next hty =>
    unfold loadCDNModule at h
    split at h
    · exact absurd h (by simp)
    · rw [hty]
      simp only [Prod.mk.injEq, Except.ok.injEq] at h
      rw [← h.1]
      exact ⟨rfl, rfl⟩
  · next hty =>
    unfold loadNPMModule at h
    split at h
    · exact absurd h (by simp)
    · split at h
      · exact absurd h (by simp)
      · rw [hty]
        simp only [Prod.mk.injEq, Except.ok.injEq] at h
        rw [← h.1]
        exact ⟨rfl, rfl⟩
  · unfold loadJSRModule at h
    exact absurd h (by simp)
  · exact absurd h (by simp)

theorem loadMiss_resolverCalls (env : Env) (st : LoaderState) (S : String) :
    ((loadMiss env st S).2).resolverCalls = st.resolverCalls + 1 := by
  unfold loadMiss
  split
  next e st' heq =>
    have hc := dispatchResolver_resolverCalls env st S
    rw [heq] at hc
    exact hc
  next m st' heq =>
    have hc := dispatchResolver_resolverCalls env st S
    rw [heq] at hc
    exact hc

theorem loadMiss_error_cache (env : Env) (st : LoaderState) (S : String)
    (e : Err) (st' : LoaderState)
    (h : loadMiss env st S = (Except.error e, st')) : st'.cache = st.cache := by
  unfold loadMiss at h
  split at h
  next e2 st2 heq =>
    have hc := dispatchResolver_cache env st S
    rw [heq] at hc
    simp only [Prod.mk.injEq] at h
    rw [← h.2]
    exact hc
  next m st2 heq => exact absurd h (by simp)

theorem loadMiss_ok_cached (env : Env) (st : LoaderState) (S : String)
    (m : Module) (st' : LoaderState)
    (h : loadMiss env st S = (Except.ok m, st')) :
    alookup st'.cache S = some m := by
  unfold loadMiss at h
  split at h
  next e st2 heq => exact absurd h (by simp)
  next m2 st2 heq =>
    simp only [Prod.mk.injEq, Except.ok.injEq] at h
    rw [← h.2, ← h.1]
    exact alookup_cons_self S m2 st2.cache

theorem loadMiss_ok_state (env : Env) (st : LoaderState) (S : String)
    (m : Module) (st' : LoaderState)
    (h : loadMiss env st S = (Except.ok m, st')) :
    ∃ st2, dispatchResolver env st S = (Except.ok m, st2) ∧
      st' = { st2 with cache := (S, m) :: st2.cache } := by
  unfold loadMiss at h
  split at h
  next e st2 heq => exact absurd h (by simp)
  next m2 st2 heq =>
    simp only [Prod.mk.injEq, Except.ok.injEq] at h
    obtain ⟨hm, hst⟩ := h
    subst hm
    exact ⟨st2, heq, hst.symm⟩

/-- A successful load means the specifier was valid and the module is now
in the content cache under the specifier key. -/
theorem loadModule_ok_cached (env : Env) (st : LoaderState) (S : String)
    (m : Module) (st' : LoaderState)
    (h : LoadModule env st S = (Except.ok m, st')) :
    (ValidateURL S).IsValid = true ∧ getFromCache st' S = some m := by
  unfold LoadModule at h
  split at h
  · next hv =>
    refine ⟨hv, ?_⟩
    split at h
    · next m2 heq =>
      simp only [Prod.mk.injEq, Except.ok.injEq] at h
      rw [← h.2, getFromCache, ← h.1]
      exact heq
    · next heq => exact loadMiss_ok_cached env st S m st' h
  · next hv => exact absurd h (by simp)

/-- A world with no reachable network, a working directory `/work` holding
one file `foo.js`, and home directory `/home/u`. -/
def envLocal : Env := ⟨fun _ => none, "/work", "/home/u"⟩

/-- Loader state over a disk holding `/work/foo.js`. -/
def stLocal : LoaderState :=
  ⟨[], [("/work/foo.js", "console.log(1);")], [], 0, 0⟩

/-- The module produced by loading `foo.js` from `stLocal`. -/
def modFoo : Module := ⟨"foo.js", "console.log(1);", .TypeLocal⟩

/-- The loader state after the first successful load of `foo.js`. -/
def stLocal1 : LoaderState := (LoadModule envLocal stLocal "foo.js").2

/-- A CDN world whose server answers `https://cdn.example.com/mod.js`
with HTTP 404 and an HTML error page as body. -/
def envCdn404 : Env :=
  ⟨fun u => if u = "https://cdn.example.com/mod.js" then
      some (404, "<html>Not Found</html>") else none,
   "/work", "/home/u"⟩

/-- A CDN world whose server answers `https://cdn.example.com/mod.js`
with HTTP 200. -/
def envCdn200 : Env :=
  ⟨fun u => if u = "https://cdn.example.com/mod.js" then
      some (200, "export default 1;") else none,
   "/work", "/home/u"⟩

/-- An NPM world whose registry answers the metadata request for
`left-pad/1.3.0` with HTTP 404. -/
def envNpm404 : Env :=
  ⟨fun u => if u = mkRegistryURL "left-pad" "1.3.0" then
      some (404, "\x7b\x7d") else none,
   "/work", "/home/u"⟩

/-- C1: for every specifier S for which load(S) succeeds, a second
sequential load(S) returns the identical module and leaves the state
untouched — in particular the resolver-invocation counter does not move,
so no scheme resolver runs: the call is answered from the content
cache. -/
theorem loadModule_second_call_cache_hit (env : Env) (st : LoaderState)
    (S : String) (m : Module) (st' : LoaderState)
    (h : LoadModule env st S = (Except.ok m, st')) :
    LoadModule env st' S = (Except.ok m, st') ∧
      ((LoadModule env st' S).2).resolverCalls = st'.resolverCalls := by
  obtain ⟨hv, hc⟩ := loadModule_ok_cached env st S m st' h
  have h2 : LoadModule env st' S = (Except.ok m, st') := by
    unfold LoadModule
    rw [hv]
    simp only [if_true]
    rw [hc]
  exact ⟨h2, by rw [h2]⟩

/-- Witness for C1: the concrete local world — the first load of `foo.js`
succeeds, and the second call returns the same module with the state
unchanged. -/
theorem loadModule_second_call_cache_hit_witness :
    LoadModule envLocal stLocal1 "foo.js" = (Except.ok modFoo, stLocal1) ∧
      ((LoadModule envLocal stLocal1 "foo.js").2).resolverCalls
        = stLocal1.resolverCalls :=
  loadModule_second_call_cache_hit envLocal stLocal "foo.js" modFoo stLocal1
    (by rfl)

/-- C5: a failed load returns the resolver's error and leaves the content
cache exactly as it was — no entry is inserted for the failed specifier,
so a later load of the same specifier sees the same cache (miss) and
retries resolution. -/
theorem loadModule_error_leaves_cache_unchanged (env : Env)
    (st : LoaderState) (S : String) (e : Err) (st' : LoaderState)
    (h : LoadModule env st S = (Except.error e, st')) :
    st'.cache = st.cache ∧ getFromCache st' S = getFromCache st S := by
  unfold LoadModule at h
  split at h
  · split at h
    · exact absurd h (by simp)
    · have hc := loadMiss_error_cache env st S e st' h
      exact ⟨hc, by rw [getFromCache, getFromCache, hc]⟩
  · simp only [Prod.mk.injEq] at h
    rw [← h.2]
    exact ⟨rfl, rfl⟩

/-- Witness for C5: loading the unimplemented `jsr:x` from the empty
state fails and the cache is unchanged (still empty). -/
theorem loadModule_error_leaves_cache_unchanged_witness :
    ({ st0 with resolverCalls := 1 } : LoaderState).cache = st0.cache ∧
      getFromCache { st0 with resolverCalls := 1 } "jsr:x"
        = getFromCache st0 "jsr:x" :=
  loadModule_error_leaves_cache_unchanged envLocal st0 "jsr:x"
    ⟨.JSRNotImplemented, ""⟩ { st0 with resolverCalls := 1 } (by rfl)

/-- C6: npm specifier parsing strips the `npm:` prefix and splits on `@`
into a name and an optional version defaulting to `latest`:
`npm:left-pad@1.3.0` gives name `left-pad` and version `1.3.0`,
`npm:left-pad` gives name `left-pad` and version `latest`, and both
classify as NPM. -/
theorem npm_specifier_parsing_examples :
    parsePackageName (goTrimPfx "npm:left-pad@1.3.0" "npm:")
        = ("left-pad", "1.3.0") ∧
      parsePackageName (goTrimPfx "npm:left-pad" "npm:")
        = ("left-pad", "latest") ∧
      (ValidateURL "npm:left-pad@1.3.0").PackageType = .TypeNPM ∧
      (ValidateURL "npm:left-pad").PackageType = .TypeNPM := by
  decide

/-- C8: every `jsr:` specifier, whatever the package name, fails with
`JSRNotImplemented` and never yields a module; the only state change is
the resolver-invocation count. -/
theorem jsr_load_always_not_implemented (env : Env) (st : LoaderState)
    (name : String)
    (hcache : getFromCache st ("jsr:" ++ name) = none) :
    LoadModule env st ("jsr:" ++ name) =
      (Except.error ⟨.JSRNotImplemented, ""⟩,
       { st with resolverCalls := st.resolverCalls + 1 }) := by
  unfold LoadModule
  rw [validateURL_jsr name]
  simp only [if_true]
  rw [hcache]
  unfold loadMiss dispatchResolver
  rw [validateURL_jsr name]
  rfl

/-- Witness for C8: loading `jsr:@std/path` from the empty state fails
with `JSRNotImplemented`. -/
theorem jsr_load_always_not_implemented_witness :
    LoadModule envLocal st0 ("jsr:" ++ "@std/path") =
      (Except.error ⟨.JSRNotImplemented, ""⟩,
       { st0 with resolverCalls := st0.resolverCalls + 1 }) :=
  jsr_load_always_not_implemented envLocal st0 "@std/path" (by rfl)

theorem goSplitAt_cons_sep (c : Char) (l : List Char) :
    goSplitAt c (c :: l) = [] :: goSplitAt c l := by
  simp [goSplitAt]

theorem goSplitAt_append_sep (c : Char) (l1 l2 : List Char)
    (h : ¬ c ∈ l1) : goSplitAt c (l1 ++ c :: l2) = l1 :: goSplitAt c l2 := by
  induction l1 with
  | nil => simp [goSplitAt]
  | cons x xs ih =>
    have hx : ¬ x = c := fun he => h (he ▸ List.mem_cons_self x xs)
    have hxs : ¬ c ∈ xs := fun hm => h (List.mem_cons_of_mem x hm)
    simp only [List.cons_append, goSplitAt, List.append_eq]
    rw [if_neg hx, ih hxs]

/-- Splitting any string that begins with the separator: Go
`strings.Split` yields the empty string as the first field. -/
theorem parsePackageName_at_head (s : String)
    (hs : strStartsWith s "@" = true) : (parsePackageName s).1 = "" := by
  obtain ⟨d⟩ := s
  cases d with
  | nil => exact absurd hs (by decide)
  | cons x xs =>
    have hx : x = '@' := by
      have h1 : ("@" : String).data = ['@'] := rfl
      simp [strStartsWith, h1, List.isPrefixOf] at hs
      exact hs.symm
    subst hx
    have hd : (String.mk ('@' :: xs)).data = '@' :: xs := rfl
    unfold parsePackageName goSplit
    rw [hd, goSplitAt_cons_sep]
    rfl

/-- Splitting a scoped reference `"@" ++ scope ++ "@" ++ ver` (with no
`@` inside `scope`): the name is empty, the version is the scope segment,
and `ver` — everything after the second `@` — is dropped. -/
theorem parsePackageName_scoped (scope ver : String)
    (h : ¬ '@' ∈ scope.data) :
    parsePackageName ("@" ++ scope ++ "@" ++ ver) = ("", scope) := by
  have hd : ("@" ++ scope ++ "@" ++ ver).data
      = '@' :: (scope.data ++ '@' :: ver.data) := by
    have h1 : ("@" : String).data = ['@'] := rfl
    simp [String.data_append, h1]
  unfold parsePackageName goSplit
  rw [hd, goSplitAt_cons_sep, goSplitAt_append_sep '@' scope.data ver.data h]
  simp only [List.map_cons, List.length_cons]
  split
  · rfl
  · next hc =>
    exfalso
    omega

/-- The registry URL built from an empty package name has a double slash
after the host. -/
theorem mkRegistryURL_empty_name (v : String) :
    mkRegistryURL "" v = "https://registry.npmjs.org//" ++ v := by
  apply String.ext
  have h0 : ("" : String).data = [] := rfl
  have h1 : ("https://registry.npmjs.org/" : String).data ++
      ("/" : String).data = ("https://registry.npmjs.org//" : String).data :=
    rfl
  simp [mkRegistryURL, String.data_append, h0, ← h1]

/-- `goJoin` (Go `filepath.Join`) silently drops an empty component. -/
theorem goJoin_drop_empty (a b : String) :
    goJoin [a, "", b] = goJoin [a, b] := by
  simp [goJoin, List.filter_cons]

/-- C9: for every scoped npm package reference — every `InstallPackage`
argument beginning with `@` — splitting on `@` yields the empty string as
the package name; for any reference `"@" ++ scope ++ "@" ++ ver` the
version becomes the scope segment and everything after the second `@`
(the real version) is dropped, so the registry URL (with a double slash)
and the cache path (`filepath.Join` dropping the empty component) are
built from an empty name. -/
theorem scoped_package_split_behavior :
    (∀ s : String, strStartsWith s "@" = true →
      (parsePackageName s).1 = "") ∧
    (∀ scope ver : String, ¬ '@' ∈ scope.data →
      parsePackageName ("@" ++ scope ++ "@" ++ ver) = ("", scope)) ∧
    (∀ scope ver cacheDir : String, ¬ '@' ∈ scope.data →
      mkRegistryURL (parsePackageName ("@" ++ scope ++ "@" ++ ver)).1
          (parsePackageName ("@" ++ scope ++ "@" ++ ver)).2
        = "https://registry.npmjs.org//" ++ scope ∧
      installCachePath cacheDir ("@" ++ scope ++ "@" ++ ver)
        = goJoin [cacheDir, scope]) := by
  refine ⟨parsePackageName_at_head, parsePackageName_scoped, ?_⟩
  intro scope ver cacheDir h
  constructor
  · rw [parsePackageName_scoped scope ver h]
    exact mkRegistryURL_empty_name scope
  · unfold installCachePath
    rw [parsePackageName_scoped scope ver h]
    exact goJoin_drop_empty cacheDir scope

/-- Witness for C9: the concrete scoped reference `@scope/name@1.0.0` —
empty name, version `scope/name`, `1.0.0` dropped, cache path built
without the empty name component. -/
theorem scoped_package_split_behavior_witness :
    (parsePackageName "@scope/name@1.0.0").1 = "" ∧
      parsePackageName ("@" ++ "scope/name" ++ "@" ++ "1.0.0")
        = ("", "scope/name") ∧
      installCachePath "/home/u/.edon/npm-cache"
          ("@" ++ "scope/name" ++ "@" ++ "1.0.0")
        = goJoin ["/home/u/.edon/npm-cache", "scope/name"] :=
  ⟨scoped_package_split_behavior.1 "@scope/name@1.0.0" (by decide),
   scoped_package_split_behavior.2.1 "scope/name" "1.0.0" (by decide),
   (scoped_package_split_behavior.2.2 "scope/name" "1.0.0"
     "/home/u/.edon/npm-cache" (by decide)).2⟩

/-- C3 counterexample: against a server answering HTTP 404, the CDN
resolver does not fail with `ModuleNotFound` — it never inspects the
status code and returns the 404 page body as module content. -/
theorem cdn_non2xx_returns_body_cex :
    envCdn404.httpResp "https://cdn.example.com/mod.js"
        = some (404, "<html>Not Found</html>") ∧
      (loadCDNModule envCdn404 st0 "https://cdn.example.com/mod.js").1 =
        Except.ok ⟨"https://cdn.example.com/mod.js",
          "<html>Not Found</html>", .TypeCDN⟩ ∧
      resultKind (loadCDNModule envCdn404 st0
          "https://cdn.example.com/mod.js").1 ≠ some .ModuleNotFound := by
  refine ⟨rfl, rfl, ?_⟩
  decide

/-- C3 as amended: the CDN resolver performs no status check — every
completed HTTP response, whatever its status, yields a module whose
content is the response body; only a transport failure (no response at
all) is `ModuleNotFound`. -/
theorem loadCDNModule_ignores_status (env : Env) (st : LoaderState)
    (url : String) :
    (∀ status body, env.httpResp url = some (status, body) →
      loadCDNModule env st url =
        (Except.ok ⟨url, body, .TypeCDN⟩,
         { st with resolverCalls := st.resolverCalls + 1,
                   httpGets := st.httpGets + 1 })) ∧
    (env.httpResp url = none →
      loadCDNModule env st url =
        (Except.error ⟨.ModuleNotFound, "transport failure"⟩,
         { st with resolverCalls := st.resolverCalls + 1,
                   httpGets := st.httpGets + 1 })) := by
  constructor
  · intro status body hresp
    unfold loadCDNModule
    rw [hresp]
  · intro hresp
    unfold loadCDNModule
    rw [hresp]
    rfl

/-- Witness for C3 (amended): the concrete 404 world — the response body
is returned as content. -/
theorem loadCDNModule_ignores_status_witness :
    loadCDNModule envCdn404 st0 "https://cdn.example.com/mod.js" =
      (Except.ok ⟨"https://cdn.example.com/mod.js",
        "<html>Not Found</html>", .TypeCDN⟩,
       { st0 with resolverCalls := st0.resolverCalls + 1,
                  httpGets := st0.httpGets + 1 }) :=
  (loadCDNModule_ignores_status envCdn404 st0
    "https://cdn.example.com/mod.js").1 404 "<html>Not Found</html>" (by rfl)

/-- C4 counterexample: for `npm:left-pad@1.3.0` against a registry
answering 404, the error surfaced by `LoadModule` has kind
`PackageInstall`, not `PackageNotFound` — `loadNPMModule` re-wraps the
package manager's failure. -/
theorem npm_registry_error_kind_cex :
    resultKind (LoadModule envNpm404 st0 "npm:left-pad@1.3.0").1
        = some .PackageInstall ∧
      resultKind (LoadModule envNpm404 st0 "npm:left-pad@1.3.0").1
        ≠ some .PackageNotFound := by
  decide

/-- C4 as amended: when the registry metadata request for an npm
specifier answers non-200, the package manager fails with
`PackageNotFound`, but `loadNPMModule` wraps that failure as
`PackageInstall` (keeping the not-found message only as context), and
`LoadModule` surfaces this `PackageInstall` error to the caller. -/
theorem npm_registry_error_surfaced_as_package_install (env : Env)
    (st : LoaderState) (url : String) (status : Nat) (body : String)
    (hpre : strStartsWith url "npm:" = true)
    (hname : ¬ goTrimPfx url "npm:" = "")
    (hcache : getFromCache st url = none)
    (hdisk : pathExists (npmCacheDir env :: st.dirs) st.files
      (installCachePath (npmCacheDir env) (goTrimPfx url "npm:")) = false)
    (hresp : env.httpResp (mkRegistryURL
        (parsePackageName (goTrimPfx url "npm:")).1
        (parsePackageName (goTrimPfx url "npm:")).2) = some (status, body))
    (hstatus : status ≠ 200) :
    LoadModule env st url =
      (Except.error ⟨.PackageInstall, errMsg ⟨.PackageNotFound, ""⟩⟩,
       { st with resolverCalls := st.resolverCalls + 1,
                 dirs := npmCacheDir env :: st.dirs,
                 httpGets := st.httpGets + 1 }) := by
  have hvalid : ValidateURL url = ⟨true, .TypeNPM, none⟩ := by
    unfold ValidateURL
    rw [hpre]
    simp [hname]
  unfold LoadModule
  rw [hvalid]
  simp only [if_true]
  rw [hcache]
  unfold loadMiss dispatchResolver
  rw [hvalid]
  unfold loadNPMModule InstallPackage
  simp only
  rw [hdisk]
  simp only [Bool.false_eq_true, if_false]
  rw [hresp]
  dsimp only
  rw [if_pos hstatus]
  rfl

/-- Witness for C4 (amended): the concrete 404-registry world for
`npm:left-pad@1.3.0`. -/
theorem npm_registry_error_surfaced_as_package_install_witness :
    LoadModule envNpm404 st0 "npm:left-pad@1.3.0" =
      (Except.error ⟨.PackageInstall, errMsg ⟨.PackageNotFound, ""⟩⟩,
       { st0 with resolverCalls := st0.resolverCalls + 1,
                  dirs := npmCacheDir envNpm404 :: st0.dirs,
                  httpGets := st0.httpGets + 1 }) :=
  npm_registry_error_surfaced_as_package_install envNpm404 st0
    "npm:left-pad@1.3.0" 404 "\x7b\x7d" (by decide) (by decide) (by rfl)
    (by decide) (by rfl) (by decide)

/-- C7: if the directory `cacheRoot/name/version` already exists when
`InstallPackage` is called, the call returns that path with the state
untouched — no registry request, no disk write; and after any successful
install, a second `InstallPackage` for the same argument reuses the cache
directory and again leaves the state untouched, so the registry is
contacted at most once. -/
theorem installPackage_cache_hit_and_idempotent (env : Env)
    (st : LoaderState) (cacheDir packageName : String) :
    (pathExists st.dirs st.files (installCachePath cacheDir packageName)
        = true →
      InstallPackage env st cacheDir packageName =
        (Except.ok (installCachePath cacheDir packageName), st)) ∧
    (∀ p st', InstallPackage env st cacheDir packageName
        = (Except.ok p, st') →
      InstallPackage env st' cacheDir packageName = (Except.ok p, st')) := by
  constructor
  · intro h
    unfold InstallPackage
    rw [h]
    rfl
  · intro p st' h
    unfold InstallPackage at h ⊢
    split at h
    · next hex =>
      simp only [Prod.mk.injEq, Except.ok.injEq] at h
      obtain ⟨hp, hst⟩ := h
      subst hp
      subst hst
      rw [if_pos hex]
    · next hex =>
      split at h
      · exact absurd h (by simp)
      · next status body heq =>
        split at h
        · exact absurd h (by simp)
        · next hstat =>
          simp only [Prod.mk.injEq, Except.ok.injEq] at h
          obtain ⟨hp, hst⟩ := h
          subst hp
          subst hst
          have hex2 : pathExists
              (installCachePath cacheDir packageName :: st.dirs)
              ((goJoin [installCachePath cacheDir packageName, "index.js"],
                "// TODO: Implement package content") :: st.files)
              (installCachePath cacheDir packageName) = true := by
            simp [pathExists]
          rw [if_pos hex2]

/-- Witness for C7: a world where `/c/left-pad/1.3.0` already exists on
disk — installing `left-pad@1.3.0` under cache root `/c` returns that
path immediately with the state untouched. -/
theorem installPackage_cache_hit_and_idempotent_witness :
    InstallPackage envLocal ⟨[], [], ["/c/left-pad/1.3.0"], 0, 0⟩ "/c"
        "left-pad@1.3.0" =
      (Except.ok (installCachePath "/c" "left-pad@1.3.0"),
       ⟨[], [], ["/c/left-pad/1.3.0"], 0, 0⟩) :=
  (installPackage_cache_hit_and_idempotent envLocal
    ⟨[], [], ["/c/left-pad/1.3.0"], 0, 0⟩ "/c" "left-pad@1.3.0").1 (by decide)

/-- C2 counterexample: two loads of the same uncached CDN specifier, in
the interleaving the Go code permits (both cache reads before either
resolution), invoke the resolver twice and issue two HTTP requests — not
the exactly-one the claim requires. -/
theorem concurrent_load_double_fetch_cex :
    (interleavedDoubleLoad envCdn200 st0
        "https://cdn.example.com/mod.js").resolverCalls = 2 ∧
      (interleavedDoubleLoad envCdn200 st0
        "https://cdn.example.com/mod.js").httpGets = 2 ∧
      (2 : Nat) ≠ 1 := by
  decide

/-- C2 as amended: the loader has no single-flight guard — for any valid
specifier missing from the cache, the interleaving in which both
concurrent loads read the cache before either resolves makes each load
run its resolver, for two resolver invocations in total. -/
theorem interleaved_double_load_two_resolver_calls (env : Env)
    (st : LoaderState) (S : String)
    (hv : (ValidateURL S).IsValid = true)
    (hmiss : getFromCache st S = none) :
    (interleavedDoubleLoad env st S).resolverCalls
      = st.resolverCalls + 2 := by
  unfold interleavedDoubleLoad
  rw [hv]
  simp only [if_true]
  rw [hmiss]
  dsimp only
  rw [loadMiss_resolverCalls env (loadMiss env st S).2 S,
      loadMiss_resolverCalls env st S]

/-- Witness for C2 (amended): the concrete 200-CDN world — the double
load from the empty state performs two resolver invocations. -/
theorem interleaved_double_load_two_resolver_calls_witness :
    (interleavedDoubleLoad envCdn200 st0
        "https://cdn.example.com/mod.js").resolverCalls
      = st0.resolverCalls + 2 :=
  interleaved_double_load_two_resolver_calls envCdn200 st0
    "https://cdn.example.com/mod.js" (by decide) (by rfl)

/-- C10: every `LoadModule` call preserves the content-cache invariant:
each entry maps its specifier key to a module whose `URL` equals the key
and whose scheme is the one the classifier assigns to the key — i.e. the
scheme of the resolver that produced it.  (Modules are immutable values
in this embedding; nothing can mutate an entry after insertion.) -/
theorem loadModule_preserves_cache_invariant (env : Env) (st : LoaderState)
    (S : String) (h : cacheInv st.cache) :
    cacheInv ((LoadModule env st S).2).cache := by
  unfold LoadModule
  split
  · split
    · exact h
    · rcases hres : loadMiss env st S with ⟨r, st'⟩
      dsimp only
      cases r with
      | error e =>
        rw [loadMiss_error_cache env st S e st' hres]
        exact h
      | ok m =>
        obtain ⟨st2, hdisp, hst⟩ := loadMiss_ok_state env st S m st' hres
        have hmod := dispatchResolver_ok env st S m st2 hdisp
        have hc2 : st2.cache = st.cache := by
          have hc := dispatchResolver_cache env st S
          rw [hdisp] at hc
          exact hc
        subst hst
        intro p hp
        rcases List.mem_cons.mp hp with hp1 | hp2
        · subst hp1
          exact ⟨hmod.1, hmod.2⟩
        · exact h p (hc2 ▸ hp2)
  · exact h

/-- Witness for C10: the invariant holds for the empty cache and is
preserved by loading `foo.js` in the concrete local world. -/
theorem loadModule_preserves_cache_invariant_witness :
    cacheInv ((LoadModule envLocal stLocal "foo.js").2).cache :=
  loadModule_preserves_cache_invariant envLocal stLocal "foo.js"
    (by simp [cacheInv, stLocal])

end Edon
